import Mathlib

/-!
# A shallow embedding of rustc's `check_consts` validator

This file embeds the two source files of the const-checking pass,

* `src/librustc_mir/transform/check_consts/qualifs.rs`
* `src/librustc_mir/transform/check_consts/validation.rs`

and proves the properties claimed of them.

Modelling conventions:

* Types (`Ty`) are opaque indices; every type-system query the source performs
  through `tcx` / `param_env` (`is_freeze`, `needs_drop`, `ty.kind`, `type_of`,
  lang-item and const-fn classification, ...) is an abstract oracle stored in
  the validation context `Item`.  The spec names these as external
  collaborators consumed through narrow interfaces.
* The fixpoint dataflow engine is likewise external; a dataflow cursor is
  modelled as an immutable per-location table plus a current position, and a
  seek is a pure repositioning that overwrites the position from the table.
* `bug!` / failed `assert!` (internal-consistency failures) make a function
  return `none`; every normal result is `some _`.
* Diagnostics are modelled at the granularity of the `check_op` /
  `check_op_spanned` calls issued by the validator: a visitor function returns
  the list of operations it reports.
-/

set_option autoImplicit false

namespace CheckConsts

/-- An abstract definition id (`DefId`). -/
abbrev DefId := Nat

/-- An abstract local slot in a function body (`mir::Local`). -/
abbrev Local := Nat

/-- An abstract source span (`syntax_pos::Span`). -/
abbrev Span := Nat

/-- An abstract unstable-feature name (`Symbol`). -/
abbrev Feature := Nat

/-- An abstract type (`Ty<'tcx>`); structure is recovered through the
`Item.kind` oracle. -/
abbrev Ty := Nat

/-- The outermost shape of a type, as far as the validator inspects it
(`ty.kind` matches in the source). -/
inductive TyKind where
  | ref (pointee : Ty)
  | rawPtr (pointee : Ty)
  | array (elemTy : Ty)
  | slice (elemTy : Ty)
  | fnDef (d : DefId)
  | fnPtr
  | int
  | float
  | other
  deriving DecidableEq

/-- Whether a type's shape is an array or a slice (the `ty::Array(..) |
ty::Slice(_)` pattern of the mutable-borrow exception). -/
def TyKind.isArrayOrSlice : TyKind → Bool
  | TyKind.array _ => true
  | TyKind.slice _ => true
  | _ => false

/-- `mir::ConstQualifs`: the pair of boolean qualifications attached to the
return value of a constant-context item. -/
structure ConstQualifs where
  has_mut_interior : Bool
  needs_drop : Bool
  deriving DecidableEq

/-- Modelled from the spec: `ConstKind` (defined in `check_consts/mod.rs`,
which is not part of the source set) classifies the item under validation:
ordinary constant, static, mutable static, or const fn. -/
inductive ConstKind where
  | const
  | static
  | staticMut
  | constFn
  deriving DecidableEq

/-- `mir::ProjectionElem`.  `field` carries the projected-to type, as in MIR. -/
inductive ProjectionElem where
  | deref
  | field (f : Nat) (fieldTy : Ty)
  | index (l : Local)
  | constantIndex
  | subslice
  | downcast (variant : Nat)
  deriving DecidableEq

/-- `mir::PlaceBase`: a local, or a static (which carries its type). -/
inductive PlaceBase where
  | loc (l : Local)
  | static (ty : Ty)
  deriving DecidableEq

/-- `mir::Place`: a base plus a projection sequence. -/
structure Place where
  base : PlaceBase
  projection : List ProjectionElem
  deriving DecidableEq

/-- The data of a `mir::Constant` operand, as far as `in_operand` inspects it:
`is_static_ptr` is the result of `check_static_ptr` (a reference to a named
static), `unevaluated` the `ConstKind::Unevaluated` def-id, and `literal_ty`
the literal's type. -/
structure ConstantData where
  is_static_ptr : Option DefId
  unevaluated : Option DefId
  literal_ty : Ty
  deriving DecidableEq

/-- `mir::Operand`. -/
inductive Operand where
  | copy (p : Place)
  | move (p : Place)
  | const (c : ConstantData)
  deriving DecidableEq

/-- `mir::BorrowKind`. -/
inductive BorrowKind where
  | shared
  | shallow
  | unique
  | mut
  deriving DecidableEq

/-- `mir::CastKind`, collapsed to the distinction the validator makes. -/
inductive CastKind where
  | misc
  | pointerCast
  deriving DecidableEq

/-- `mir::NullOp`. -/
inductive NullOp where
  | sizeOf
  | box
  deriving DecidableEq

/-- `mir::BinOp`, collapsed to the comparison/offset operators the validator
asserts for pointer operands plus a catch-all. -/
inductive BinOp where
  | eq | ne | le | lt | ge | gt | offset
  | arith
  deriving DecidableEq

/-- `mir::UnOp`. -/
inductive UnOp where
  | neg
  | not
  deriving DecidableEq

/-- `mir::AggregateKind`, collapsed to whether it is an ADT (with its def-id). -/
inductive AggregateKind where
  | adt (d : DefId)
  | other
  deriving DecidableEq

/-- `mir::Rvalue`. -/
inductive Rvalue where
  | useOp (op : Operand)
  | repeatOp (op : Operand)
  | ref (bk : BorrowKind) (p : Place)
  | cast (ck : CastKind) (op : Operand) (ty : Ty)
  | unaryOp (u : UnOp) (op : Operand)
  | binaryOp (b : BinOp) (lhs rhs : Operand)
  | checkedBinaryOp (b : BinOp) (lhs rhs : Operand)
  | nullaryOp (n : NullOp) (ty : Ty)
  | discriminant (p : Place)
  | len (p : Place)
  | aggregate (k : AggregateKind) (ops : List Operand)

/-- `mir::TerminatorKind`, restricted to the variants the validator treats
specially plus a catch-all. -/
inductive TerminatorKind where
  | ret
  | call (func : Operand)
  | drop (place : Place)
  | dropAndReplace (place : Place)
  | otherTerm

/-- Whether a terminator is `TerminatorKind::Return`. -/
def TerminatorKind.isReturn : TerminatorKind → Bool
  | TerminatorKind.ret => true
  | _ => false

/-- `mir::BasicBlockData`, reduced to what the embedded functions read: the
number of statements (for `terminator_loc`) and the terminator kind. -/
structure BasicBlockData where
  stmtCount : Nat
  terminator : TerminatorKind

instance : Inhabited BasicBlockData := ⟨{ stmtCount := 0, terminator := TerminatorKind.otherTerm }⟩

/-- `mir::LocalDecl`: declared type, declaration span, and the
`LocalInfo::StaticRef` tag for compiler-synthesized reference-to-static
locals. -/
structure LocalDecl where
  ty : Ty
  span : Span
  static_ref : Option DefId := none

instance : Inhabited LocalDecl := ⟨{ ty := 0, span := 0 }⟩

/-- `LocalDecl::is_ref_to_static`. -/
def LocalDecl.is_ref_to_static (d : LocalDecl) : Bool :=
  d.static_ref.isSome

/-- `mir::Location`: (basic block, statement index). -/
structure Location where
  block : Nat
  statement_index : Nat
  deriving DecidableEq

/-- `mir::Body`, reduced to local declarations, basic blocks and the declared
return type. -/
structure Body where
  local_decls : List LocalDecl
  basic_blocks : List BasicBlockData
  return_ty : Ty

/-- Look up a local's declaration (`body.local_decls[local]`). -/
def Body.decl (b : Body) (l : Local) : LocalDecl :=
  b.local_decls.getD l default

/-- `Body::terminator_loc`: the location of a block's terminator. -/
def Body.terminator_loc (b : Body) (bb : Nat) : Location :=
  { block := bb, statement_index := (b.basic_blocks.getD bb default).stmtCount }

/-- `mir::RETURN_PLACE`. -/
def RETURN_PLACE : Local := 0

/-- The validation context (`Item` in `check_consts/mod.rs`, used as the `cx`
of every qualif query).  Modelled from the spec: the item bundles the body and
const-kind with the narrow type-system / const-fn classification queries that
the source performs through `tcx` and `param_env`; each query is an abstract
oracle field. -/
structure Item where
  body : Body
  /-- Modelled from the spec: the const-kind classification of the item
  (`Item::const_kind()`). -/
  const_kind : ConstKind
  /-- `ty.kind` -/
  kind : Ty → TyKind
  /-- `ty.is_freeze(tcx, param_env, span)` -/
  is_freeze : Ty → Bool
  /-- `ty.needs_drop(tcx, param_env)` -/
  needs_drop : Ty → Bool
  /-- `tcx.type_of(def_id)` -/
  type_of : DefId → Ty
  /-- `tcx.trait_of_item(def_id).is_some()` -/
  trait_of_item : DefId → Bool
  /-- `tcx.mir_const_qualif(def_id)` -/
  mir_const_qualif : DefId → ConstQualifs
  /-- whether the ADT def-id is the `UnsafeCell` lang item
  (`tcx.lang_items().unsafe_cell_type()`) -/
  is_cell_adt : DefId → Bool
  /-- `adt_def.has_dtor(tcx)` -/
  has_dtor : DefId → Bool
  /-- whether `tcx.fn_sig(def_id).abi()` is `RustIntrinsic`/`PlatformIntrinsic` -/
  is_intrinsic : DefId → Bool
  /-- `tcx.item_name(def_id) == sym::transmute` -/
  item_name_transmute : DefId → Bool
  /-- `tcx.is_const_fn(def_id)` -/
  is_const_fn : DefId → Bool
  /-- Modelled from the spec: `is_lang_panic_fn` (defined in
  `check_consts/mod.rs`): whether the def-id is a panic-producing language
  item. -/
  is_lang_panic_fn : DefId → Bool
  /-- `tcx.is_unstable_const_fn(def_id)`: the gating feature, if any -/
  is_unstable_const_fn : DefId → Option Feature
  /-- `span.allows_unstable(feature)` -/
  allows_unstable : Span → Feature → Bool

/-- `PlaceTy::projection_ty`: the type obtained by applying one projection
element to a type.  `field` carries its type in MIR; `deref` and indexing
consult the type's shape through the oracle. -/
def projection_ty (item : Item) (ty : Ty) : ProjectionElem → Ty
  | ProjectionElem.deref =>
    match item.kind ty with
    | TyKind.ref t => t
    | TyKind.rawPtr t => t
    | _ => ty
  | ProjectionElem.field _ fieldTy => fieldTy
  | ProjectionElem.index _ =>
    match item.kind ty with
    | TyKind.array t => t
    | TyKind.slice t => t
    | _ => ty
  | ProjectionElem.constantIndex =>
    match item.kind ty with
    | TyKind.array t => t
    | TyKind.slice t => t
    | _ => ty
  | ProjectionElem.subslice => ty
  | ProjectionElem.downcast _ => ty

/-- The type of a place base. -/
def PlaceBase.ty (item : Item) : PlaceBase → Ty
  | PlaceBase.loc l => (item.body.decl l).ty
  | PlaceBase.static t => t

/-- `Place::ty_from(base, projection, body, tcx)`. -/
def Place.ty_from (item : Item) (base : PlaceBase) (proj : List ProjectionElem) : Ty :=
  proj.foldl (projection_ty item) (base.ty item)

/-- `Place::ty`. -/
def Place.ty (item : Item) (p : Place) : Ty :=
  Place.ty_from item p.base p.projection

/-- `Place::as_local`: `some l` exactly when the place is local `l` with no
projection. -/
def Place.as_local : Place → Option Local
  | { base := PlaceBase.loc l, projection := [] } => some l
  | _ => none

/-- `Operand::ty`. -/
def Operand.ty (item : Item) : Operand → Ty
  | Operand.copy p => Place.ty item p
  | Operand.move p => Place.ty item p
  | Operand.const c => c.literal_ty

/-! ## The `Qualif` trait (`qualifs.rs`)

The trait is a closed two-variant dispatch; the shared structural-recursion
functions are parameterized over a `QualifImpl`, and the two qualification
kinds override `in_rvalue` (and supply `in_qualifs` / `in_any_value_of_ty` /
`IS_CLEARED_ON_MOVE`). -/

/-- The per-kind data of a `Qualif` implementation. -/
structure QualifImpl where
  /-- `Qualif::IS_CLEARED_ON_MOVE` -/
  is_cleared_on_move : Bool
  /-- `Qualif::in_qualifs` -/
  in_qualifs : ConstQualifs → Bool
  /-- `Qualif::in_any_value_of_ty` -/
  in_any_value_of_ty : Item → Ty → Bool

namespace Qualif

/-- `Qualif::in_static`: re-derive through the static's declared type. -/
def in_static (Q : QualifImpl) (item : Item) (d : DefId) : Bool :=
  Q.in_any_value_of_ty item (item.type_of d)

/-- `Qualif::in_place`, with the bodies of `in_projection` /
`in_projection_structurally` inlined at the recursive position so that the
recursion on the snoc-structured projection list is visibly terminating.
`none` models the `bug!` on an already-promoted static base.  Standalone
definitions of the projection functions, and equations relating them to this
one, follow below. -/
def in_place (Q : QualifImpl) (item : Item) (per_local : Local → Bool) :
    PlaceBase → List ProjectionElem → Option Bool
  | PlaceBase.loc l, [] => some (per_local l)
  | PlaceBase.static _, [] => none
  | base, e0 :: rest =>
    match (e0 :: rest).getLast? with
    | none => none
    | some elem =>
      let proj_base := (e0 :: rest).dropLast
      match in_place Q item per_local base proj_base with
      | none => none
      | some base_qualif =>
        let qualif := base_qualif &&
          Q.in_any_value_of_ty item
            (projection_ty item (Place.ty_from item base proj_base) elem)
        match elem with
        | ProjectionElem.index l => some (qualif || per_local l)
        | _ => some qualif
  termination_by _ proj => proj.length
  decreasing_by simp [List.length_dropLast]

/-- `Qualif::in_projection_structurally`: evaluate the base recursively, AND
with the type-level answer for the projected-to type, and OR in the index
local for a runtime `Index`.  `none` on an empty projection models the `bug!`
("This should be called if projection is not empty"). -/
def in_projection_structurally (Q : QualifImpl) (item : Item) (per_local : Local → Bool)
    (base : PlaceBase) (proj : List ProjectionElem) : Option Bool :=
  match proj.getLast? with
  | none => none
  | some elem =>
    let proj_base := proj.dropLast
    match in_place Q item per_local base proj_base with
    | none => none
    | some base_qualif =>
      let qualif := base_qualif &&
        Q.in_any_value_of_ty item
          (projection_ty item (Place.ty_from item base proj_base) elem)
      match elem with
      | ProjectionElem.index l => some (qualif || per_local l)
      | _ => some qualif

/-- `Qualif::in_projection` (the default delegates to the structural rule). -/
def in_projection (Q : QualifImpl) (item : Item) (per_local : Local → Bool)
    (base : PlaceBase) (proj : List ProjectionElem) : Option Bool :=
  in_projection_structurally Q item per_local base proj

/-- `in_place` dispatches a non-empty projection to `in_projection`. -/
theorem in_place_cons (Q : QualifImpl) (item : Item) (per_local : Local → Bool)
    (base : PlaceBase) (e0 : ProjectionElem) (rest : List ProjectionElem) :
    in_place Q item per_local base (e0 :: rest) =
      in_projection Q item per_local base (e0 :: rest) := by
  cases base <;>
    simp only [in_place, in_projection, in_projection_structurally]

/-- `Qualif::in_operand`. -/
def in_operand (Q : QualifImpl) (item : Item) (per_local : Local → Bool) :
    Operand → Option Bool
  | Operand.copy p => in_place Q item per_local p.base p.projection
  | Operand.move p => in_place Q item per_local p.base p.projection
  | Operand.const c =>
    match c.is_static_ptr with
    | some d => some (in_static Q item d)
    | none =>
      match c.unevaluated with
      | some d =>
        -- Don't peek inside trait associated constants.
        if item.trait_of_item d then
          some (Q.in_any_value_of_ty item c.literal_ty)
        else
          some (Q.in_qualifs (item.mir_const_qualif d) &&
            Q.in_any_value_of_ty item c.literal_ty)
      | none => some false

/-- Short-circuiting `||` over `in_operand` of two operands (the second is not
evaluated when the first already qualifies, matching Rust's `||`). -/
def in_operand_or (Q : QualifImpl) (item : Item) (per_local : Local → Bool)
    (lhs rhs : Operand) : Option Bool :=
  match in_operand Q item per_local lhs with
  | none => none
  | some true => some true
  | some false => in_operand Q item per_local rhs

/-- Short-circuiting `any` over `in_operand` of a list of operands
(`operands.iter().any(...)`). -/
def in_operand_any (Q : QualifImpl) (item : Item) (per_local : Local → Bool) :
    List Operand → Option Bool
  | [] => some false
  | o :: os =>
    match in_operand Q item per_local o with
    | none => none
    | some true => some true
    | some false => in_operand_any Q item per_local os

/-- `Qualif::in_rvalue_structurally`, including the reborrow special case for
`Rvalue::Ref` of a place whose outermost projection is a `Deref` of a
reference-typed (not raw-pointer) base. -/
def in_rvalue_structurally (Q : QualifImpl) (item : Item) (per_local : Local → Bool) :
    Rvalue → Option Bool
  | Rvalue.nullaryOp _ _ => some false
  | Rvalue.discriminant p => in_place Q item per_local p.base p.projection
  | Rvalue.len p => in_place Q item per_local p.base p.projection
  | Rvalue.useOp op => in_operand Q item per_local op
  | Rvalue.repeatOp op => in_operand Q item per_local op
  | Rvalue.unaryOp _ op => in_operand Q item per_local op
  | Rvalue.cast _ op _ => in_operand Q item per_local op
  | Rvalue.binaryOp _ lhs rhs => in_operand_or Q item per_local lhs rhs
  | Rvalue.checkedBinaryOp _ lhs rhs => in_operand_or Q item per_local lhs rhs
  | Rvalue.ref _ p =>
    -- Special-case reborrows to be more like a copy of the reference.
    match p.projection.getLast? with
    | some ProjectionElem.deref =>
      let proj_base := p.projection.dropLast
      match item.kind (Place.ty_from item p.base proj_base) with
      | TyKind.ref _ => in_place Q item per_local p.base proj_base
      | _ => in_place Q item per_local p.base p.projection
    | _ => in_place Q item per_local p.base p.projection
  | Rvalue.aggregate _ ops => in_operand_any Q item per_local ops

/-- `Qualif::in_call`: always conservative, from the declared return type. -/
def in_call (Q : QualifImpl) (item : Item) (_per_local : Local → Bool)
    (_callee : Operand) (_args : List Operand) (return_ty : Ty) : Bool :=
  Q.in_any_value_of_ty item return_ty

end Qualif

/-- `HasMutInterior`: constant containing interior mutability. -/
def HasMutInterior : QualifImpl where
  is_cleared_on_move := false
  in_qualifs := fun q => q.has_mut_interior
  in_any_value_of_ty := fun item ty => !(item.is_freeze ty)

/-- `HasMutInterior`'s `in_rvalue` override: an aggregate of the `UnsafeCell`
lang-item ADT qualifies unconditionally; otherwise structural.  (The source
also asserts that `in_any_value_of_ty` agrees on the aggregate's type; the
assertion does not affect the returned value.) -/
def HasMutInterior.in_rvalue (item : Item) (per_local : Local → Bool)
    (rvalue : Rvalue) : Option Bool :=
  match rvalue with
  | Rvalue.aggregate (AggregateKind.adt d) _ =>
    if item.is_cell_adt d then some true
    else Qualif.in_rvalue_structurally HasMutInterior item per_local rvalue
  | _ => Qualif.in_rvalue_structurally HasMutInterior item per_local rvalue

/-- `NeedsDrop`: constant containing an ADT that implements `Drop`. -/
def NeedsDrop : QualifImpl where
  is_cleared_on_move := true
  in_qualifs := fun q => q.needs_drop
  in_any_value_of_ty := fun item ty => item.needs_drop ty

/-- `NeedsDrop`'s `in_rvalue` override: an aggregate of an ADT with a
destructor qualifies unconditionally; otherwise structural. -/
def NeedsDrop.in_rvalue (item : Item) (per_local : Local → Bool)
    (rvalue : Rvalue) : Option Bool :=
  match rvalue with
  | Rvalue.aggregate (AggregateKind.adt d) _ =>
    if item.has_dtor d then some true
    else Qualif.in_rvalue_structurally NeedsDrop item per_local rvalue
  | _ => Qualif.in_rvalue_structurally NeedsDrop item per_local rvalue

namespace qualifs

/-- The free function `qualifs::in_any_value_of_ty`: the pair of type-level
over-approximations. -/
def in_any_value_of_ty (item : Item) (ty : Ty) : ConstQualifs where
  has_mut_interior := QualifImpl.in_any_value_of_ty HasMutInterior item ty
  needs_drop := QualifImpl.in_any_value_of_ty NeedsDrop item ty

end qualifs

/-! ## The `Qualifs` cursor aggregator (`validation.rs`)

The fixpoint dataflow engine is an external collaborator: its result is an
immutable per-location table.  A cursor holds a current value; `seek_before` /
`seek` are pure repositionings that overwrite the current value from the
table.  `*_any_value` are the precomputed per-local bitsets
(`QualifCursor::in_any_value_of_ty`) built from the locals' declared types. -/

/-- The state of the `Qualifs` aggregator: one cursor (table + current value)
per qualification kind plus one for the `IndirectlyMutableLocals` analysis. -/
structure QualifsState where
  /-- fixpoint table of the `HasMutInterior` analysis, `seek_before` view -/
  hmi_before : Location → Local → Bool
  /-- fixpoint table of the `NeedsDrop` analysis, `seek_before` view -/
  nd_before : Location → Local → Bool
  /-- fixpoint table of the `IndirectlyMutableLocals` analysis, `seek` view -/
  indirect_at : Location → Local → Bool
  /-- locals whose declared type alone already qualifies for `HasMutInterior` -/
  hmi_any_value : Local → Bool
  /-- locals whose declared type alone already qualifies for `NeedsDrop` -/
  nd_any_value : Local → Bool
  /-- current value of the `has_mut_interior` cursor -/
  hmi_pos : Local → Bool
  /-- current value of the `needs_drop` cursor -/
  nd_pos : Local → Bool
  /-- current value of the `indirectly_mutable` cursor -/
  indirect_pos : Local → Bool

namespace Qualifs

/-- `self.has_mut_interior.cursor.seek_before(location)`. -/
def seek_before_hmi (q : QualifsState) (loc : Location) : QualifsState :=
  { q with hmi_pos := q.hmi_before loc }

/-- `self.needs_drop.cursor.seek_before(location)`. -/
def seek_before_nd (q : QualifsState) (loc : Location) : QualifsState :=
  { q with nd_pos := q.nd_before loc }

/-- `self.indirectly_mutable.seek(location)`. -/
def seek_indirect (q : QualifsState) (loc : Location) : QualifsState :=
  { q with indirect_pos := q.indirect_at loc }

/-- `Qualifs::indirectly_mutable`: seek the indirect-mutability cursor to the
location and read the local's bit. -/
def indirectly_mutable (q : QualifsState) (l : Local) (loc : Location) :
    QualifsState × Bool :=
  let q := seek_indirect q loc
  (q, q.indirect_pos l)

/-- `Qualifs::needs_drop_lazy_seek`: short-circuit to `false` when the local's
declared type can never need drop; otherwise seek the cursor to just before
the location and OR with the indirect-mutability fact (Rust's `||` does not
evaluate — and hence does not seek — the second operand when the first is
already `true`). -/
def needs_drop_lazy_seek (q : QualifsState) (l : Local) (loc : Location) :
    QualifsState × Bool :=
  if !(q.nd_any_value l) then (q, false)
  else
    let q := seek_before_nd q loc
    if q.nd_pos l then (q, true)
    else indirectly_mutable q l loc

/-- `Qualifs::has_mut_interior_lazy_seek`. -/
def has_mut_interior_lazy_seek (q : QualifsState) (l : Local) (loc : Location) :
    QualifsState × Bool :=
  if !(q.hmi_any_value l) then (q, false)
  else
    let q := seek_before_hmi q loc
    if q.hmi_pos l then (q, true)
    else indirectly_mutable q l loc

/-- `Qualifs::has_mut_interior_eager_seek`: read the already-positioned
cursors without re-seeking. -/
def has_mut_interior_eager_seek (q : QualifsState) (l : Local) : Bool :=
  if !(q.hmi_any_value l) then false
  else q.hmi_pos l || q.indirect_pos l

/-- `iter_enumerated().find(...)` over the basic blocks: the index of the
first block whose terminator is `Return`. -/
def find_return_block_from (blocks : List BasicBlockData) (i : Nat) : Option Nat :=
  match blocks with
  | [] => none
  | b :: rest =>
    if b.terminator.isReturn then some i
    else find_return_block_from rest (i + 1)

/-- `Qualifs::in_return_place`: if no `Return` terminator exists, report the
conservative qualifs for the declared return type; otherwise lazily seek both
qualif cursors to the first `Return` terminator's location and report the
combined pair (the source computes `needs_drop` first, then
`has_mut_interior`). -/
def in_return_place (q : QualifsState) (item : Item) : QualifsState × ConstQualifs :=
  match find_return_block_from item.body.basic_blocks 0 with
  | none => (q, qualifs.in_any_value_of_ty item item.body.return_ty)
  | some bb =>
    let return_loc := item.body.terminator_loc bb
    let nd := needs_drop_lazy_seek q RETURN_PLACE return_loc
    let hmi := has_mut_interior_lazy_seek nd.1 RETURN_PLACE return_loc
    (hmi.1, { has_mut_interior := hmi.2, needs_drop := nd.2 })

end Qualifs

/-! ## The flow-sensitive transfer function (spec model)

Modelled from the spec: the flow-sensitive resolver (`resolver.rs`, part of
this pass but not among the source files) wraps a `Qualif` in a forward
dataflow transfer function.  Per the spec, the qualification "is cleared when
the carrying local is moved out of" exactly when `IS_CLEARED_ON_MOVE` holds,
and an assignment re-initializes the destination local's bit; other events
leave the per-local bits unchanged. -/

/-- One dataflow event, as far as the move/assign behaviour of the transfer
function is concerned. -/
inductive TransferEvent where
  | moveFrom (l : Local)
  | assign (l : Local) (qualified : Bool)
  | otherEvent

/-- Whether an event re-initializes local `l`. -/
def TransferEvent.reinitializes (l : Local) : TransferEvent → Prop
  | TransferEvent.assign l' _ => l' = l
  | _ => False

instance (l : Local) (e : TransferEvent) : Decidable (e.reinitializes l) := by
  cases e <;> simp [TransferEvent.reinitializes] <;> infer_instance

/-- Modelled from the spec: the transfer function on the per-local bit-vector.
A `moveFrom` clears the moved-from local's bit iff the qualif is cleared on
move; an assignment overwrites the destination's bit; other events are
no-ops. -/
def transfer (Q : QualifImpl) (s : Local → Bool) : TransferEvent → (Local → Bool)
  | TransferEvent.moveFrom l =>
    if Q.is_cleared_on_move then (fun l' => if l' = l then false else s l') else s
  | TransferEvent.assign l b => fun l' => if l' = l then b else s l'
  | TransferEvent.otherEvent => s

/-! ## The validator visitor (`validation.rs`) -/

/-- The operations reported through `check_op` / `check_op_spanned`
(`ops::NonConstOp` instances relevant to the embedded visitor arms).
`liveDrop` carries the span the source attributes the diagnostic to. -/
inductive Op where
  | mutBorrow (k : BorrowKind)
  | rawPtrToIntCast
  | rawPtrComparison
  | heapAllocation
  | transmute
  | fnCallIndirect
  | fnCallOther
  | panicCall
  | fnCallUnstable (d : DefId) (f : Feature)
  | fnCallNonConst (d : DefId)
  | liveDrop (sp : Span)
  deriving DecidableEq

/-- `place_as_reborrow`: `some inner` when the place's outermost projection is
a `Deref`, the base is not a compiler-synthesized reference-to-static local,
and the dereferenced type is a reference (not a raw pointer). -/
def place_as_reborrow (item : Item) (place : Place) : Option (List ProjectionElem) :=
  match place.projection.getLast? with
  | none => none
  | some outermost =>
    if outermost ≠ ProjectionElem.deref then none
    else
      -- A borrow of a `static` also looks like `&(*_1)` in the MIR; `_1` is a
      -- const pointing at the static's allocation.  Don't treat these as
      -- reborrows.
      let base_is_static_ref :=
        match place.base with
        | PlaceBase.loc l => (item.body.decl l).is_ref_to_static
        | PlaceBase.static _ => false
      if base_is_static_ref then none
      else
        -- Ensure the type being derefed is a reference and not a raw pointer.
        let inner := place.projection.dropLast
        match item.kind (Place.ty_from item place.base inner) with
        | TyKind.ref _ => some inner
        | _ => none

/-- `rustc::ty::cast::CastTy`, restricted to the classes the validator
distinguishes. -/
inductive CastTy where
  | int
  | float
  | ptr
  | fnPtr
  deriving DecidableEq

/-- `CastTy::from_ty`, on the shapes the `Item.kind` oracle exposes (`none`
models the classes the validator's `expect` would reject). -/
def CastTy.from_ty (item : Item) (ty : Ty) : Option CastTy :=
  match item.kind ty with
  | TyKind.rawPtr _ => some CastTy.ptr
  | TyKind.fnPtr => some CastTy.fnPtr
  | TyKind.int => some CastTy.int
  | TyKind.float => some CastTy.float
  | _ => none

/-- `Validator::visit_rvalue`, restricted to the `check_op` calls the function
itself issues (the recursive `super_rvalue` walk over sub-places and operands
is a separate concern).  `none` models `bug!` or a failed `expect`.  The
reborrow special case returns early with no rvalue-level operation reported;
`q` and `loc` supply the cursor state for the shared/shallow-borrow check. -/
def visit_rvalue_own_ops (item : Item) (q : QualifsState) (loc : Location) :
    Rvalue → Option (List Op)
  | Rvalue.ref kind place =>
    -- Special-case reborrows to be more like a copy of a reference.
    if (place_as_reborrow item place).isSome then some []
    else
      match kind with
      | BorrowKind.mut | BorrowKind.unique =>
        let ty := Place.ty item place
        let is_allowed : Bool :=
          match item.kind ty with
          -- Inside a `static mut`, `&mut [...]` is allowed.
          | TyKind.array _ => item.const_kind == ConstKind.staticMut
          | TyKind.slice _ => item.const_kind == ConstKind.staticMut
          | _ => false
        if is_allowed then some [] else some [Op.mutBorrow kind]
      | BorrowKind.shared | BorrowKind.shallow =>
        match place.base with
        | PlaceBase.static _ =>
          -- `PlaceBase::Static` is only used for promoted MIR:
          -- "Saw a promoted during const-checking".
          none
        | PlaceBase.loc _ =>
          let q := Qualifs.seek_before_hmi q loc
          let q := Qualifs.seek_indirect q loc
          match Qualif.in_place HasMutInterior item
              (fun l => Qualifs.has_mut_interior_eager_seek q l)
              place.base place.projection with
          | none => none
          | some borrowed_place_has_mut_interior =>
            if borrowed_place_has_mut_interior then
              some [Op.mutBorrow kind]
            else some []
  | Rvalue.cast CastKind.misc op cast_ty =>
    match CastTy.from_ty item (Operand.ty item op), CastTy.from_ty item cast_ty with
    | none, _ => none   -- expect("bad input type for cast")
    | _, none => none   -- expect("bad output type for cast")
    | some CastTy.ptr, some CastTy.int => some [Op.rawPtrToIntCast]
    | some CastTy.fnPtr, some CastTy.int => some [Op.rawPtrToIntCast]
    | some _, some _ => some []
  | Rvalue.binaryOp _ lhs _ =>
    match item.kind (Operand.ty item lhs) with
    | TyKind.rawPtr _ => some [Op.rawPtrComparison]
    | TyKind.fnPtr => some [Op.rawPtrComparison]
    | _ => some []
  | Rvalue.nullaryOp NullOp.box _ => some [Op.heapAllocation]
  | _ => some []

/-- The shared `Drop`/`DropAndReplace` arm of `Validator::visit_terminator_kind`:
frivolous when the dropped place's declared type never needs drop;
path-sensitive (and attributed to the local's declaration span) for a
projection-free local; conservatively disallowed through a projection. -/
def visit_drop_terminator (item : Item) (q : QualifsState) (sp : Span)
    (loc : Location) (dropped_place : Place) : Option (List Op) :=
  let ty_needs_drop := item.needs_drop (Place.ty item dropped_place)
  if !ty_needs_drop then some []
  else
    match dropped_place.as_local with
    | some l =>
      -- Use the span where the local was declared as the span of the error.
      let err_span := (item.body.decl l).span
      if (Qualifs.needs_drop_lazy_seek q l loc).2 then
        some [Op.liveDrop err_span]
      else some []
    | none => some [Op.liveDrop sp]

/-- `Validator::visit_terminator_kind`, restricted to the `check_op` calls the
function itself issues (`super_terminator_kind` recursion aside).  `sp` is the
current span (`self.span`), `loc` the terminator's location.  `none` models a
failed `assert!` (an intrinsic classified as a const fn). -/
def visit_terminator_own_ops (item : Item) (q : QualifsState) (sp : Span)
    (loc : Location) : TerminatorKind → Option (List Op)
  | TerminatorKind.call func =>
    match item.kind (Operand.ty item func) with
    | TyKind.fnDef d =>
      -- At this point, we are calling a function whose `DefId` is known...
      if item.is_intrinsic d then
        if item.is_const_fn d then none  -- assert!(!tcx.is_const_fn(def_id))
        else if item.item_name_transmute d then some [Op.transmute]
        -- All other intrinsics pass unchecked.
        else some []
      else if item.is_const_fn d then some []
      else if item.is_lang_panic_fn d then some [Op.panicCall]
      else
        match item.is_unstable_const_fn d with
        | some feature =>
          -- Exempt unstable const fns inside of macros with
          -- `#[allow_internal_unstable]`.
          if !(item.allows_unstable sp feature) then
            some [Op.fnCallUnstable d feature]
          else some []
        | none => some [Op.fnCallNonConst d]
    | TyKind.fnPtr => some [Op.fnCallIndirect]
    | _ => some [Op.fnCallOther]
  | TerminatorKind.drop dropped_place =>
    visit_drop_terminator item q sp loc dropped_place
  | TerminatorKind.dropAndReplace dropped_place =>
    visit_drop_terminator item q sp loc dropped_place
  | _ => some []

/-! ## Concrete fixtures

Small concrete contexts and states used to witness the theorems below on
explicit inputs. -/

/-- A concrete validation context: one local of type `5`, whose shape under
the type oracle is a reference to type `3`; one basic block (two statements)
ending in `Return`. -/
def itemW : Item where
  body :=
    { local_decls := [{ ty := 5, span := 100 }]
      basic_blocks := [{ stmtCount := 2, terminator := TerminatorKind.ret }]
      return_ty := 5 }
  const_kind := ConstKind.const
  kind := fun t => if t = 5 then TyKind.ref 3 else TyKind.other
  is_freeze := fun _ => true
  needs_drop := fun _ => false
  type_of := fun _ => 0
  trait_of_item := fun _ => false
  mir_const_qualif := fun _ => { has_mut_interior := false, needs_drop := false }
  is_cell_adt := fun _ => false
  has_dtor := fun _ => false
  is_intrinsic := fun _ => false
  item_name_transmute := fun _ => false
  is_const_fn := fun _ => false
  is_lang_panic_fn := fun _ => false
  is_unstable_const_fn := fun _ => none
  allows_unstable := fun _ _ => false

/-- A validation context whose only local is a compiler-synthesized
reference-to-static local. -/
def itemRefStaticW : Item :=
  { itemW with
    body :=
      { local_decls := [{ ty := 5, span := 100, static_ref := some 42 }]
        basic_blocks := [{ stmtCount := 2, terminator := TerminatorKind.ret }]
        return_ty := 5 } }

/-- An ordinary static whose only local has array type. -/
def itemArrStaticW : Item :=
  { itemW with
    const_kind := ConstKind.static
    kind := fun t => if t = 5 then TyKind.array 3 else TyKind.other }

/-- A mutable static whose only local has array type. -/
def itemArrStaticMutW : Item :=
  { itemArrStaticW with const_kind := ConstKind.staticMut }

/-- A context in which def-id `7` is an intrinsic named `transmute`, and type
`5` is the function-item type of `7`. -/
def itemIntrinsicW : Item :=
  { itemW with
    kind := fun t => if t = 5 then TyKind.fnDef 7 else TyKind.other
    is_intrinsic := fun d => d == 7
    item_name_transmute := fun d => d == 7 }

/-- A context in which type `5` (the only local's type) needs drop. -/
def itemDropW : Item :=
  { itemW with needs_drop := fun t => t == 5 }

/-- A concrete cursor-aggregator state. -/
def qW : QualifsState where
  hmi_before := fun _ _ => true
  nd_before := fun _ _ => false
  indirect_at := fun _ _ => false
  hmi_any_value := fun _ => true
  nd_any_value := fun _ => true
  hmi_pos := fun _ => false
  nd_pos := fun _ => false
  indirect_pos := fun _ => false

/-- A state in which the `needs_drop` analysis holds everywhere. -/
def qDropW : QualifsState :=
  { qW with nd_before := fun _ _ => true }

/-- A concrete location. -/
def locW : Location := { block := 0, statement_index := 0 }

/-- The place consisting of local `0` with no projection. -/
def place0W : Place := { base := PlaceBase.loc 0, projection := [] }

/-- A constant operand of type `5`. -/
def funcW : Operand :=
  Operand.const { is_static_ptr := none, unevaluated := none, literal_ty := 5 }

/-! ## Helper lemmas -/

namespace Qualifs

/-- The boolean a `needs_drop` lazy seek returns, phrased via the immutable
tables. -/
theorem needs_drop_lazy_seek_snd (q : QualifsState) (l : Local) (loc : Location) :
    (needs_drop_lazy_seek q l loc).2 =
      (q.nd_any_value l && (q.nd_before loc l || q.indirect_at loc l)) := by
  unfold needs_drop_lazy_seek seek_before_nd indirectly_mutable seek_indirect
  by_cases h1 : q.nd_any_value l
  · by_cases h2 : q.nd_before loc l <;> simp [h1, h2]
  · simp [h1]

/-- The boolean a `has_mut_interior` lazy seek returns, phrased via the
immutable tables. -/
theorem has_mut_interior_lazy_seek_snd (q : QualifsState) (l : Local) (loc : Location) :
    (has_mut_interior_lazy_seek q l loc).2 =
      (q.hmi_any_value l && (q.hmi_before loc l || q.indirect_at loc l)) := by
  unfold has_mut_interior_lazy_seek seek_before_hmi indirectly_mutable seek_indirect
  by_cases h1 : q.hmi_any_value l
  · by_cases h2 : q.hmi_before loc l <;> simp [h1, h2]
  · simp [h1]

/-- A `needs_drop` lazy seek only repositions cursors: the tables and
type-level bitsets are unchanged. -/
theorem needs_drop_lazy_seek_fst (q : QualifsState) (l : Local) (loc : Location) :
    ((needs_drop_lazy_seek q l loc).1).hmi_any_value = q.hmi_any_value ∧
    ((needs_drop_lazy_seek q l loc).1).hmi_before = q.hmi_before ∧
    ((needs_drop_lazy_seek q l loc).1).indirect_at = q.indirect_at := by
  unfold needs_drop_lazy_seek seek_before_nd indirectly_mutable seek_indirect
  by_cases h1 : q.nd_any_value l
  · by_cases h2 : q.nd_before loc l <;> simp [h1, h2]
  · simp [h1]

/-- `find_return_block_from` returns `none` when no block's terminator is a
`Return`. -/
theorem find_return_block_from_none (blocks : List BasicBlockData) (i : Nat)
    (h : ∀ b ∈ blocks, b.terminator.isReturn = false) :
    find_return_block_from blocks i = none := by
  induction blocks generalizing i with
  | nil => rfl
  | cons b rest ih =>
    have hb := h b (List.mem_cons_self b rest)
    simp only [find_return_block_from, hb, if_neg]
    exact ih (i + 1) (fun b' hb' => h b' (List.mem_cons_of_mem b hb'))

/-- `find_return_block_from` finds the unique index whose terminator is a
`Return`. -/
theorem find_return_block_from_unique (blocks : List BasicBlockData) (i k : Nat)
    (hk : k < blocks.length)
    (hret : (blocks.getD k default).terminator.isReturn = true)
    (huniq : ∀ j, j < blocks.length →
      (blocks.getD j default).terminator.isReturn = true → j = k) :
    find_return_block_from blocks i = some (i + k) := by
  induction blocks generalizing i k with
  | nil => exact absurd hk (Nat.not_lt_zero k)
  | cons b rest ih =>
    by_cases hb : b.terminator.isReturn
    · have hk0 : 0 = k := huniq 0 (Nat.succ_pos _) (by simpa using hb)
      subst hk0
      simp [find_return_block_from, hb]
    · have hkne : k ≠ 0 := by
        intro h0
        subst h0
        exact hb (by simpa using hret)
      obtain ⟨k', rfl⟩ := Nat.exists_eq_succ_of_ne_zero hkne
      have hres : find_return_block_from rest (i + 1) = some ((i + 1) + k') := by
        refine ih (i + 1) k' (by simpa using Nat.lt_of_succ_lt_succ hk)
          (by simpa using hret) ?_
        intro j hj hjret
        have := huniq (j + 1) (by simpa using Nat.succ_lt_succ hj) (by simpa using hjret)
        omega
      simp only [find_return_block_from, hb, if_neg, Bool.false_eq_true,
        not_false_iff, hres]
      congr 1
      omega

end Qualifs

/-! ## The claims -/

/-- C2: for both qualification kinds, `in_rvalue` of a reference taken over
`*P` where `P` has reference type equals `in_place` of `P` itself, for every
per-local predicate. -/
theorem reborrow_transparency (item : Item) (per_local : Local → Bool)
    (bk : BorrowKind) (base : PlaceBase) (proj : List ProjectionElem) (t : Ty)
    (h : item.kind (Place.ty_from item base proj) = TyKind.ref t) :
    HasMutInterior.in_rvalue item per_local
        (Rvalue.ref bk { base := base, projection := proj ++ [ProjectionElem.deref] })
      = Qualif.in_place HasMutInterior item per_local base proj
    ∧ NeedsDrop.in_rvalue item per_local
        (Rvalue.ref bk { base := base, projection := proj ++ [ProjectionElem.deref] })
      = Qualif.in_place NeedsDrop item per_local base proj := by
  have key : ∀ Q : QualifImpl,
      Qualif.in_rvalue_structurally Q item per_local
        (Rvalue.ref bk { base := base, projection := proj ++ [ProjectionElem.deref] })
      = Qualif.in_place Q item per_local base proj := by
    intro Q
    simp only [Qualif.in_rvalue_structurally, List.getLast?_concat,
      List.dropLast_concat, h]
  exact ⟨key HasMutInterior, key NeedsDrop⟩

/-- Witness for `reborrow_transparency` at a concrete reference-typed place. -/
theorem reborrow_transparency_witness :
    itemW.kind (Place.ty_from itemW (PlaceBase.loc 0) []) = TyKind.ref 3
    ∧ HasMutInterior.in_rvalue itemW (fun _ => false)
        (Rvalue.ref BorrowKind.shared
          { base := PlaceBase.loc 0, projection := [] ++ [ProjectionElem.deref] })
      = Qualif.in_place HasMutInterior itemW (fun _ => false) (PlaceBase.loc 0) [] :=
  ⟨by decide, (reborrow_transparency itemW (fun _ => false) BorrowKind.shared
      (PlaceBase.loc 0) [] 3 (by decide)).1⟩

/-- C3: for a non-empty projection, the structural qualification is "base
qualifies AND the projected-to type can carry the qualification", ORed with
the index local's own qualification exactly when the final element is a
runtime `Index`. -/
theorem projection_structural_rule (Q : QualifImpl) (item : Item)
    (per_local : Local → Bool) (base : PlaceBase) (proj : List ProjectionElem)
    (elem : ProjectionElem) (bq : Bool)
    (hbase : Qualif.in_place Q item per_local base proj = some bq) :
    (∀ l, elem = ProjectionElem.index l →
      Qualif.in_projection_structurally Q item per_local base (proj ++ [elem]) =
        some ((bq && Q.in_any_value_of_ty item
          (projection_ty item (Place.ty_from item base proj) elem)) || per_local l))
    ∧ ((∀ l, elem ≠ ProjectionElem.index l) →
      Qualif.in_projection_structurally Q item per_local base (proj ++ [elem]) =
        some (bq && Q.in_any_value_of_ty item
          (projection_ty item (Place.ty_from item base proj) elem))) := by
  constructor
  · rintro l rfl
    simp only [Qualif.in_projection_structurally, List.getLast?_concat,
      List.dropLast_concat, hbase]
  · intro hne
    cases elem with
    | index l => exact absurd rfl (hne l)
    | deref =>
      simp only [Qualif.in_projection_structurally, List.getLast?_concat,
        List.dropLast_concat, hbase]
    | field f fieldTy =>
      simp only [Qualif.in_projection_structurally, List.getLast?_concat,
        List.dropLast_concat, hbase]
    | constantIndex =>
      simp only [Qualif.in_projection_structurally, List.getLast?_concat,
        List.dropLast_concat, hbase]
    | subslice =>
      simp only [Qualif.in_projection_structurally, List.getLast?_concat,
        List.dropLast_concat, hbase]
    | downcast v =>
      simp only [Qualif.in_projection_structurally, List.getLast?_concat,
        List.dropLast_concat, hbase]

/-- Witness for `projection_structural_rule`: a field projection on a local. -/
theorem projection_structural_rule_witness :
    Qualif.in_place HasMutInterior itemW (fun _ => true) (PlaceBase.loc 0) [] = some true
    ∧ Qualif.in_projection_structurally HasMutInterior itemW (fun _ => true)
        (PlaceBase.loc 0) ([] ++ [ProjectionElem.field 0 9]) =
      some (true && QualifImpl.in_any_value_of_ty HasMutInterior itemW
        (projection_ty itemW (Place.ty_from itemW (PlaceBase.loc 0) [])
          (ProjectionElem.field 0 9))) :=
  ⟨by rw [Qualif.in_place], (projection_structural_rule HasMutInterior itemW
    (fun _ => true) (PlaceBase.loc 0) [] (ProjectionElem.field 0 9) true
    (by rw [Qualif.in_place])).2 (fun l => by simp)⟩

/-- C5: the lazy-seek query and an eager read after manually positioning the
qualification cursor to just before the location and the indirect-mutability
cursor to the location return the same boolean. -/
theorem lazy_eager_seek_agree (q : QualifsState) (l : Local) (loc : Location) :
    (Qualifs.has_mut_interior_lazy_seek q l loc).2 =
      Qualifs.has_mut_interior_eager_seek
        (Qualifs.seek_indirect (Qualifs.seek_before_hmi q loc) loc) l := by
  rw [Qualifs.has_mut_interior_lazy_seek_snd]
  unfold Qualifs.has_mut_interior_eager_seek Qualifs.seek_indirect Qualifs.seek_before_hmi
  by_cases h1 : q.hmi_any_value l <;> simp [h1]

/-- C9: an operand whose constant literal is already evaluated (neither a
reference to a named static nor an unevaluated constant) is unqualified for
both qualification kinds, whatever its type. -/
theorem evaluated_constant_operand_unqualified (item : Item)
    (per_local : Local → Bool) (c : ConstantData)
    (h1 : c.is_static_ptr = none) (h2 : c.unevaluated = none) :
    Qualif.in_operand HasMutInterior item per_local (Operand.const c) = some false
    ∧ Qualif.in_operand NeedsDrop item per_local (Operand.const c) = some false := by
  constructor <;> simp [Qualif.in_operand, h1, h2]

/-- Witness for `evaluated_constant_operand_unqualified` at a concrete
evaluated literal whose type would qualify for both kinds at the type level. -/
theorem evaluated_constant_operand_unqualified_witness :
    Qualif.in_operand HasMutInterior itemW (fun _ => true)
      (Operand.const { is_static_ptr := none, unevaluated := none, literal_ty := 7 })
      = some false
    ∧ Qualif.in_operand NeedsDrop itemW (fun _ => true)
      (Operand.const { is_static_ptr := none, unevaluated := none, literal_ty := 7 })
      = some false :=
  evaluated_constant_operand_unqualified itemW (fun _ => true)
    { is_static_ptr := none, unevaluated := none, literal_ty := 7 } rfl rfl

/-- C10: `place_as_reborrow` applies exactly when the outermost projection is
a `Deref`, the base is not a reference-to-static local, and the dereferenced
type is a reference; in particular a place based on a reference-to-static
local is never a reborrow. -/
theorem place_as_reborrow_characterization (item : Item) (place : Place) :
    ((place_as_reborrow item place).isSome ↔
      (place.projection.getLast? = some ProjectionElem.deref
        ∧ (∀ l, place.base = PlaceBase.loc l →
            (item.body.decl l).is_ref_to_static = false)
        ∧ ∃ t, item.kind
            (Place.ty_from item place.base place.projection.dropLast) = TyKind.ref t))
    ∧ (∀ l, place.base = PlaceBase.loc l →
        (item.body.decl l).is_ref_to_static = true →
        place_as_reborrow item place = none) := by
  constructor
  · unfold place_as_reborrow
    cases hlast : place.projection.getLast? with
    | none => simp
    | some outermost =>
      by_cases hd : outermost = ProjectionElem.deref
      · subst hd
        cases hbase : place.base with
        | loc l =>
          by_cases href : (item.body.decl l).is_ref_to_static
          · simp only [if_neg (by simp : ¬(ProjectionElem.deref ≠ ProjectionElem.deref)),
              href, if_pos]
            simp [hbase, href]
          · simp only [if_neg (by simp : ¬(ProjectionElem.deref ≠ ProjectionElem.deref)),
              href, if_neg]
            cases hkind : item.kind
                (Place.ty_from item place.base place.projection.dropLast) <;>
              simp_all [hbase]
        | static t =>
          simp only [if_neg (by simp : ¬(ProjectionElem.deref ≠ ProjectionElem.deref))]
          cases hkind : item.kind
              (Place.ty_from item place.base place.projection.dropLast) <;>
            simp_all [hbase]
      · simp [hd, Ne.symm hd]
  · intro l hbase href
    unfold place_as_reborrow
    cases hlast : place.projection.getLast? with
    | none => rfl
    | some outermost =>
      by_cases hd : outermost = ProjectionElem.deref
      · subst hd
        simp [hbase, href]
      · simp [hd]

/-- Witness for `place_as_reborrow_characterization`: `&(*_1)` with `_1` a
reference-to-static local is not a reborrow, although `_1` has reference
type. -/
theorem place_as_reborrow_characterization_witness :
    place_as_reborrow itemRefStaticW
      { base := PlaceBase.loc 0, projection := [ProjectionElem.deref] } = none :=
  (place_as_reborrow_characterization itemRefStaticW
    { base := PlaceBase.loc 0, projection := [ProjectionElem.deref] }).2
    0 rfl (by decide)

/-- A `false` `NeedsDrop` bit stays `false` through any events that do not
re-initialize the local. -/
theorem transfer_preserves_false (s : Local → Bool) (l : Local)
    (evs : List TransferEvent) (hs : s l = false)
    (h : ∀ e ∈ evs, ¬ e.reinitializes l) :
    List.foldl (transfer NeedsDrop) s evs l = false := by
  induction evs generalizing s with
  | nil => exact hs
  | cons e evs ih =>
    refine ih (transfer NeedsDrop s e) ?_
      (fun e' he' => h e' (List.mem_cons_of_mem e he'))
    cases e with
    | moveFrom l' =>
      by_cases hl : l = l' <;> simp [transfer, NeedsDrop, hl, hs]
    | assign l' b =>
      have hne : ¬ l' = l := h _ (List.mem_cons_self _ _)
      have hne' : l ≠ l' := fun hc => hne hc.symm
      simp [transfer, hne', hs]
    | otherEvent => simpa [transfer] using hs

/-- C4: `IS_CLEARED_ON_MOVE` holds for `NeedsDrop` and not for
`HasMutInterior`; accordingly the transfer function keeps a moved-from
local's `NeedsDrop` bit `false` at every subsequent point until it is
re-initialized, while a move leaves the `HasMutInterior` state untouched. -/
theorem move_clears_drop_only :
    QualifImpl.is_cleared_on_move NeedsDrop = true
    ∧ QualifImpl.is_cleared_on_move HasMutInterior = false
    ∧ (∀ (s : Local → Bool) (l : Local) (evs : List TransferEvent),
        (∀ e ∈ evs, ¬ e.reinitializes l) →
        List.foldl (transfer NeedsDrop)
          (transfer NeedsDrop s (TransferEvent.moveFrom l)) evs l = false)
    ∧ (∀ (s : Local → Bool) (l : Local),
        transfer HasMutInterior s (TransferEvent.moveFrom l) = s) := by
  refine ⟨rfl, rfl, ?_, ?_⟩
  · intro s l evs h
    exact transfer_preserves_false _ l evs (by simp [transfer, NeedsDrop]) h
  · intro s l
    simp [transfer, HasMutInterior]

/-- Witness for `move_clears_drop_only`: after local `0` is moved from, later
moves and assignments to other locals never revive its `NeedsDrop` bit. -/
theorem move_clears_drop_only_witness :
    (∀ e ∈ [TransferEvent.moveFrom 1, TransferEvent.otherEvent,
        TransferEvent.assign 2 true], ¬ e.reinitializes 0)
    ∧ List.foldl (transfer NeedsDrop)
        (transfer NeedsDrop (fun _ => true) (TransferEvent.moveFrom 0))
        [TransferEvent.moveFrom 1, TransferEvent.otherEvent,
          TransferEvent.assign 2 true] 0 = false :=
  ⟨by decide, move_clears_drop_only.2.2.1 (fun _ => true) 0 _ (by decide)⟩

/-- C1: with no `Return` terminator the reported pair is the type-level
over-approximation of the declared return type; with exactly one `Return`
terminator it is the pair of lazy-seek dataflow results for the return place
at that terminator's location. -/
theorem return_place_qualification (item : Item) (q : QualifsState) :
    ((∀ b ∈ item.body.basic_blocks, b.terminator.isReturn = false) →
      (Qualifs.in_return_place q item).2 =
        qualifs.in_any_value_of_ty item item.body.return_ty)
    ∧ (∀ k, k < item.body.basic_blocks.length →
        (item.body.basic_blocks.getD k default).terminator.isReturn = true →
        (∀ j, j < item.body.basic_blocks.length →
          (item.body.basic_blocks.getD j default).terminator.isReturn = true → j = k) →
        (Qualifs.in_return_place q item).2 =
          { has_mut_interior := (Qualifs.has_mut_interior_lazy_seek q RETURN_PLACE
              (item.body.terminator_loc k)).2,
            needs_drop := (Qualifs.needs_drop_lazy_seek q RETURN_PLACE
              (item.body.terminator_loc k)).2 }) := by
  constructor
  · intro h
    unfold Qualifs.in_return_place
    rw [Qualifs.find_return_block_from_none _ 0 h]
  · intro k hk hret huniq
    unfold Qualifs.in_return_place
    rw [show Qualifs.find_return_block_from item.body.basic_blocks 0 = some k by
      simpa using Qualifs.find_return_block_from_unique _ 0 k hk hret huniq]
    dsimp only
    congr 1
    rw [Qualifs.has_mut_interior_lazy_seek_snd, Qualifs.has_mut_interior_lazy_seek_snd,
      (Qualifs.needs_drop_lazy_seek_fst q RETURN_PLACE (item.body.terminator_loc k)).1,
      (Qualifs.needs_drop_lazy_seek_fst q RETURN_PLACE (item.body.terminator_loc k)).2.1,
      (Qualifs.needs_drop_lazy_seek_fst q RETURN_PLACE (item.body.terminator_loc k)).2.2]

/-- Witness for `return_place_qualification`: the context with exactly one
`Return` terminator reports exactly the lazy-seek pair at its location. -/
theorem return_place_qualification_witness :
    (Qualifs.in_return_place qW itemW).2 =
      { has_mut_interior := (Qualifs.has_mut_interior_lazy_seek qW RETURN_PLACE
          (itemW.body.terminator_loc 0)).2,
        needs_drop := (Qualifs.needs_drop_lazy_seek qW RETURN_PLACE
          (itemW.body.terminator_loc 0)).2 } :=
  (return_place_qualification itemW qW).2 0 (by decide) (by decide)
    (fun j hj _ => by
      have hj' : j < 1 := hj
      omega)

/-- C6: a mutable or unique borrow that is not a reborrow reports the
mutable-borrow operation unless the borrowed place's type is an array or
slice and the item is a mutable static. -/
theorem mut_borrow_rvalue_check (item : Item) (q : QualifsState) (loc : Location)
    (kind : BorrowKind) (place : Place)
    (hk : kind = BorrowKind.mut ∨ kind = BorrowKind.unique)
    (hnr : place_as_reborrow item place = none) :
    visit_rvalue_own_ops item q loc (Rvalue.ref kind place) =
      some (if (item.kind (Place.ty item place)).isArrayOrSlice
                && (item.const_kind == ConstKind.staticMut)
            then [] else [Op.mutBorrow kind]) := by
  rcases hk with rfl | rfl <;>
  · simp only [visit_rvalue_own_ops, hnr, Option.isSome_none, Bool.false_eq_true,
      if_false]
    cases hkd : item.kind (Place.ty item place) <;>
      by_cases hc : item.const_kind = ConstKind.staticMut <;>
      simp [TyKind.isArrayOrSlice, hkd, hc]

/-- Witness for `mut_borrow_rvalue_check`: `&mut` of an array-typed place is
reported inside an ordinary static and allowed inside a mutable static. -/
theorem mut_borrow_rvalue_check_witness :
    visit_rvalue_own_ops itemArrStaticW qW locW (Rvalue.ref BorrowKind.mut place0W)
      = some [Op.mutBorrow BorrowKind.mut]
    ∧ visit_rvalue_own_ops itemArrStaticMutW qW locW (Rvalue.ref BorrowKind.mut place0W)
      = some [] := by
  constructor
  · rw [mut_borrow_rvalue_check itemArrStaticW qW locW BorrowKind.mut place0W
      (Or.inl rfl) rfl]
    decide
  · rw [mut_borrow_rvalue_check itemArrStaticMutW qW locW BorrowKind.mut place0W
      (Or.inl rfl) rfl]
    decide

/-- C7: classification of a call to a statically known function item: among
intrinsics exactly `transmute` is reported; const fns pass; then panic
language items, unstable const fns not exempted by the span, and all other
callees are reported each with their own operation. -/
theorem call_terminator_classification (item : Item) (q : QualifsState) (sp : Span)
    (loc : Location) (func : Operand) (d : DefId)
    (hd : item.kind (Operand.ty item func) = TyKind.fnDef d) :
    (item.is_intrinsic d = true → item.is_const_fn d = false →
      visit_terminator_own_ops item q sp loc (TerminatorKind.call func) =
        some (if item.item_name_transmute d then [Op.transmute] else []))
    ∧ (item.is_intrinsic d = false → item.is_const_fn d = true →
      visit_terminator_own_ops item q sp loc (TerminatorKind.call func) = some [])
    ∧ (item.is_intrinsic d = false → item.is_const_fn d = false →
        item.is_lang_panic_fn d = true →
      visit_terminator_own_ops item q sp loc (TerminatorKind.call func) =
        some [Op.panicCall])
    ∧ (∀ f, item.is_intrinsic d = false → item.is_const_fn d = false →
        item.is_lang_panic_fn d = false → item.is_unstable_const_fn d = some f →
        item.allows_unstable sp f = false →
      visit_terminator_own_ops item q sp loc (TerminatorKind.call func) =
        some [Op.fnCallUnstable d f])
    ∧ (item.is_intrinsic d = false → item.is_const_fn d = false →
        item.is_lang_panic_fn d = false → item.is_unstable_const_fn d = none →
      visit_terminator_own_ops item q sp loc (TerminatorKind.call func) =
        some [Op.fnCallNonConst d]) := by
  refine ⟨?_, ?_, ?_, ?_, ?_⟩
  · intro h1 h2
    simp only [visit_terminator_own_ops, hd]
    cases htr : item.item_name_transmute d <;> simp [h1, h2, htr]
  · intro h1 h2
    simp only [visit_terminator_own_ops, hd]
    simp [h1, h2]
  · intro h1 h2 h3
    simp only [visit_terminator_own_ops, hd]
    simp [h1, h2, h3]
  · intro f h1 h2 h3 h4 h5
    simp only [visit_terminator_own_ops, hd]
    simp [h1, h2, h3, h4, h5]
  · intro h1 h2 h3 h4
    simp only [visit_terminator_own_ops, hd]
    simp [h1, h2, h3, h4]

/-- Witness for `call_terminator_classification`: calling the `transmute`
intrinsic is reported as a transmute. -/
theorem call_terminator_classification_witness :
    visit_terminator_own_ops itemIntrinsicW qW 0 locW (TerminatorKind.call funcW)
      = some [Op.transmute] := by
  rw [(call_terminator_classification itemIntrinsicW qW 0 locW funcW 7
    (by decide)).1 (by decide) (by decide)]
  decide

/-- C8: a drop of a place whose declared type never needs drop reports
nothing; a drop of a bare local reports a live drop (at the local's
declaration span) exactly when the lazy-seek drop qualification holds; a drop
through a projection always reports a live drop at the drop site's span. -/
theorem drop_terminator_check (item : Item) (q : QualifsState) (sp : Span)
    (loc : Location) (place : Place) :
    (item.needs_drop (Place.ty item place) = false →
      visit_terminator_own_ops item q sp loc (TerminatorKind.drop place) = some []
      ∧ visit_terminator_own_ops item q sp loc (TerminatorKind.dropAndReplace place)
        = some [])
    ∧ (∀ l, place.as_local = some l →
        item.needs_drop (Place.ty item place) = true →
      visit_terminator_own_ops item q sp loc (TerminatorKind.drop place) =
        some (if (Qualifs.needs_drop_lazy_seek q l loc).2
              then [Op.liveDrop (item.body.decl l).span] else [])
      ∧ visit_terminator_own_ops item q sp loc (TerminatorKind.dropAndReplace place) =
        some (if (Qualifs.needs_drop_lazy_seek q l loc).2
              then [Op.liveDrop (item.body.decl l).span] else []))
    ∧ (place.as_local = none → item.needs_drop (Place.ty item place) = true →
      visit_terminator_own_ops item q sp loc (TerminatorKind.drop place) =
        some [Op.liveDrop sp]
      ∧ visit_terminator_own_ops item q sp loc (TerminatorKind.dropAndReplace place) =
        some [Op.liveDrop sp]) := by
  refine ⟨?_, ?_, ?_⟩
  · intro h
    constructor <;>
      simp [visit_terminator_own_ops, visit_drop_terminator, h]
  · intro l hl h
    cases hnd : (Qualifs.needs_drop_lazy_seek q l loc).2 <;>
      constructor <;>
      simp [visit_terminator_own_ops, visit_drop_terminator, h, hl, hnd]
  · intro hl h
    constructor <;>
      simp [visit_terminator_own_ops, visit_drop_terminator, h, hl]

/-- Witness for `drop_terminator_check`: dropping a bare local whose drop
qualification holds reports a live drop at the local's declaration span
(`100`), not the drop site's span (`55`). -/
theorem drop_terminator_check_witness :
    visit_terminator_own_ops itemDropW qDropW 55 locW (TerminatorKind.drop place0W)
      = some [Op.liveDrop 100] := by
  rw [((drop_terminator_check itemDropW qDropW 55 locW place0W).2.1 0 rfl
    (by decide)).1]
  decide

end CheckConsts
